import Mathlib

/-!
# Chronoshift coordinate algebra (`src/game/engine/coord.h`)

A shallow embedding of the inline functions of `coord.h` and proofs of their
round-trip, idempotence and wrap-around properties.

Machine integers are mathematical integers with explicit reductions:

* `coord_t`  (unsigned 32-bit)  is a `Nat` below `2^32`;
* `lepton_t` (signed 16-bit)    is an `Int` in `-32768 .. 32767`;
* `cell_t`   (signed 16-bit)    is an `Int` in `-32768 .. 32767`;
* `uint8_t`                     is a `Nat` below `256`;
* `int`      (signed 32-bit)    is an `Int` in `-2^31 .. 2^31 - 1`.

Every implicit conversion of the C++ source is written out as one of the
`to*` functions below; bitwise operators on `int` operands act on the 32-bit
binary pattern of the operand.
-/

namespace Chronoshift

/-! ## Machine integer model -/

/-- Conversion to `uint32_t` / `unsigned`: reduction modulo `2^32`. -/
def toUInt32 (v : Int) : Nat := (v % 4294967296).toNat

/-- Conversion to `uint16_t`: reduction modulo `2^16`. -/
def toUInt16 (v : Int) : Nat := (v % 65536).toNat

/-- Conversion to `uint8_t`: reduction modulo `2^8`. -/
def toUInt8 (v : Int) : Nat := (v % 256).toNat

/-- Conversion to `int` (signed 32-bit, wrapping). -/
def toInt32 (v : Int) : Int := (v + 2147483648) % 4294967296 - 2147483648

/-- Conversion to `int16_t` (signed 16-bit, wrapping). -/
def toInt16 (v : Int) : Int := (v + 32768) % 65536 - 32768

/-- The operator `a & b` on two `int` operands. -/
def intAnd (a b : Int) : Int := toInt32 ((toUInt32 a &&& toUInt32 b : Nat) : Int)

/-- The operator `a | b` on two `int` operands. -/
def intOr (a b : Int) : Int := toInt32 ((toUInt32 a ||| toUInt32 b : Nat) : Int)

/-- The operator `a << k` on an `int` operand (wrapping to 32 bits). -/
def intShl (a : Int) (k : Nat) : Int := toInt32 (a * 2 ^ k)

/-- The operator `a >> k` on an `int` operand (arithmetic shift). -/
def intSar (a : Int) (k : Nat) : Int := a >>> k

/-- The operator `a + b` on two `int` operands. -/
def intAdd (a b : Int) : Int := toInt32 (a + b)

/-- The operator `a - b` on two `int` operands. -/
def intSub (a b : Int) : Int := toInt32 (a - b)

/-- The operator `a * b` on two `int` operands. -/
def intMul (a b : Int) : Int := toInt32 (a * b)

/-- The operator `a / b` on two `int` operands (truncation toward zero). -/
def intDiv (a b : Int) : Int := toInt32 (Int.tdiv a b)

/-- Values of type `coord_t`. -/
def IsCoord (c : Nat) : Prop := c < 4294967296

/-- Values of type `lepton_t` and `cell_t` (`int16_t`). -/
def IsInt16 (v : Int) : Prop := -32768 ≤ v ∧ v ≤ 32767

/-- Values of type `int`. -/
def IsInt32 (v : Int) : Prop := -2147483648 ≤ v ∧ v ≤ 2147483647

/-- Values of type `uint8_t`. -/
def IsUInt8 (v : Nat) : Prop := v < 256

instance (c : Nat) : Decidable (IsCoord c) := by unfold IsCoord; infer_instance
instance (v : Int) : Decidable (IsInt16 v) := by unfold IsInt16; infer_instance
instance (v : Int) : Decidable (IsInt32 v) := by unfold IsInt32; infer_instance
instance (v : Nat) : Decidable (IsUInt8 v) := by unfold IsUInt8; infer_instance

/-! ## Constants of `coord.h` -/

def MAP_MAX_WIDTH : Nat := 128
def MAP_MAX_HEIGHT : Nat := 128
def CELL_PIXELS : Nat := 24
def CELL_LEPTONS : Nat := 256

/-! ## Coordinate codec -/

/-- `coord & 0x0000FFFF`, returned as `lepton_t`. -/
def Coord_Lepton_X (coord : Nat) : Int :=
  toInt16 ((coord &&& 0x0000FFFF : Nat) : Int)

/-- `(coord & 0xFFFF0000) >> 16`, returned as `lepton_t`. -/
def Coord_Lepton_Y (coord : Nat) : Int :=
  toInt16 (((coord &&& 0xFFFF0000) >>> 16 : Nat) : Int)

/-- `coord & 0xFF`, returned as `lepton_t`. -/
def Coord_Sub_Cell_X (coord : Nat) : Int :=
  toInt16 ((coord &&& 0xFF : Nat) : Int)

/-- `(coord >> 16) & 0xFF`, returned as `lepton_t`. -/
def Coord_Sub_Cell_Y (coord : Nat) : Int :=
  toInt16 (((coord >>> 16) &&& 0xFF : Nat) : Int)

/-- `(x & 0xFFFF) | (y << 16)`, computed in `int` and returned as `coord_t`. -/
def Coord_From_Lepton_XY (x y : Int) : Nat :=
  toUInt32 (intOr (intAnd x 0xFFFF) (intShl y 16))

/-- Component-wise sum; each sum is stored in a `lepton_t` local. -/
def Coord_Add (coord1 coord2 : Nat) : Nat :=
  let lx := toInt16 (intAdd (Coord_Lepton_X coord1) (Coord_Lepton_X coord2))
  let ly := toInt16 (intAdd (Coord_Lepton_Y coord1) (Coord_Lepton_Y coord2))
  Coord_From_Lepton_XY lx ly

/-- Component-wise difference; each difference is stored in a `lepton_t` local. -/
def Coord_Subtract (coord1 coord2 : Nat) : Nat :=
  let lx := toInt16 (intSub (Coord_Lepton_X coord1) (Coord_Lepton_X coord2))
  let ly := toInt16 (intSub (Coord_Lepton_Y coord1) (Coord_Lepton_Y coord2))
  Coord_From_Lepton_XY lx ly

/-- `(coord & 0xFF00FF00) | 0x00800080`. -/
def Coord_Centered (coord : Nat) : Nat :=
  (coord &&& 0xFF00FF00) ||| 0x00800080

/-- `coord & 0xFF00FF00`. -/
def Coord_Top_Left (coord : Nat) : Nat :=
  coord &&& 0xFF00FF00

/-- `coord & 0x00FF00FF`. -/
def Coord_Sub_Cell (coord : Nat) : Nat :=
  coord &&& 0x00FF00FF

/-- `Coord_Centered(Coord_Add(coord, AdjacentCoord[(unsigned)facing % FACING_COUNT]))`.
The table `AdjacentCoord` and its length `FACING_COUNT` are declared outside
`coord.h`; they are parameters here, and the table can only be read at an
index below `FACING_COUNT`. -/
def Coord_Get_Adjacent (FACING_COUNT : Nat) (hcount : 0 < FACING_COUNT)
    (AdjacentCoord : Fin FACING_COUNT → Nat) (coord : Nat) (facing : Int) : Nat :=
  Coord_Centered
    (Coord_Add coord (AdjacentCoord ⟨toUInt32 facing % FACING_COUNT, Nat.mod_lt _ hcount⟩))

/-- `(coord & 0x00007F00) >> 8`, returned as `uint8_t`. -/
def Coord_Cell_X (coord : Nat) : Nat :=
  toUInt8 (((coord &&& 0x00007F00) >>> 8 : Nat) : Int)

/-- `(coord & 0x7F000000) >> 24`, returned as `uint8_t`. -/
def Coord_Cell_Y (coord : Nat) : Nat :=
  toUInt8 (((coord &&& 0x7F000000) >>> 24 : Nat) : Int)

/-- `(coord & 0x80008000) != 0`. -/
def Coord_Is_Negative (coord : Nat) : Bool :=
  (coord &&& 0x80008000) != 0

/-! ## Cell grid -/

/-- `((y % MAP_MAX_WIDTH) * MAP_MAX_WIDTH) + (x % MAP_MAX_WIDTH)`, returned as `cell_t`. -/
def Cell_From_XY (x y : Nat) : Int :=
  toInt16 (intAdd (intMul ((y % MAP_MAX_WIDTH : Nat) : Int) (MAP_MAX_WIDTH : Int))
    ((x % MAP_MAX_WIDTH : Nat) : Int))

/-- `Cell_From_XY(Coord_Cell_X(coord), Coord_Cell_Y(coord))`. -/
def Coord_To_Cell (coord : Nat) : Int :=
  Cell_From_XY (Coord_Cell_X coord) (Coord_Cell_Y coord)

/-- `(unsigned)cellnum % MAP_MAX_WIDTH`, returned as `uint8_t`. -/
def Cell_Get_X (cellnum : Int) : Nat :=
  toUInt8 ((toUInt32 cellnum % MAP_MAX_WIDTH : Nat) : Int)

/-- `(unsigned)cellnum / MAP_MAX_HEIGHT`, returned as `uint8_t`. -/
def Cell_Get_Y (cellnum : Int) : Nat :=
  toUInt8 ((toUInt32 cellnum / MAP_MAX_HEIGHT : Nat) : Int)

/-- `0x00800080 | (Cell_Get_X(cellnum) << 8) | (Cell_Get_Y(cellnum) << 24)`,
computed in `int` and returned as `coord_t`. -/
def Cell_To_Coord (cellnum : Int) : Nat :=
  toUInt32 (intOr (intOr 0x00800080 (intShl (Cell_Get_X cellnum : Int) 8))
    (intShl (Cell_Get_Y cellnum : Int) 24))

/-- `(Cell_Get_X(cellnum) << 8) | (Cell_Get_Y(cellnum) << 24)`,
computed in `int` and returned as `coord_t`. -/
def Cell_To_Coord_Top_Left (cellnum : Int) : Nat :=
  toUInt32 (intOr (intShl (Cell_Get_X cellnum : Int) 8)
    (intShl (Cell_Get_Y cellnum : Int) 24))

/-- `cellnum != 0`. -/
def Valid_Cell (cellnum : Int) : Bool :=
  cellnum != 0

/-! ## Lepton / pixel conversion -/

/-- `cellcoord * 256`, returned as `lepton_t`. -/
def Coord_Cell_To_Lepton (cellcoord : Int) : Int :=
  toInt16 (intMul cellcoord 256)

/-- `((pixel << 8) + 12) / 24`, returned as `lepton_t`. -/
def Pixel_To_Lepton (pixel : Int) : Int :=
  toInt16 (intDiv (intAdd (intShl pixel 8) 12) 24)

/-- `(24 * lepton + 128) >> 8`. -/
def Lepton_To_Pixel (lepton : Int) : Int :=
  intSar (intAdd (intMul 24 lepton) 128) 8

/-- `Pixel_To_Lepton(Lepton_To_Pixel(lepton))`. -/
def Lepton_Round_To_Pixel (lepton : Int) : Int :=
  Pixel_To_Lepton (Lepton_To_Pixel lepton)

/-- `Coord_From_Lepton_XY(Pixel_To_Lepton(x), Pixel_To_Lepton(y))`. -/
def Coord_From_Pixel_XY (x y : Int) : Nat :=
  Coord_From_Lepton_XY (Pixel_To_Lepton x) (Pixel_To_Lepton y)

/-- `Coord_From_Pixel_XY` of the pixel images of both leptons. -/
def Round_Coord_To_Pixel (coord : Nat) : Nat :=
  Coord_From_Pixel_XY (Lepton_To_Pixel (Coord_Lepton_X coord))
    (Lepton_To_Pixel (Coord_Lepton_Y coord))

/-- `((uint16_t)(lepton + 128) >> 8) & 0xFF`, returned as `uint8_t`. -/
def Lepton_To_Cell_Coord (lepton : Int) : Nat :=
  toUInt8 (((toUInt16 (intAdd lepton 128) >>> 8) &&& 0xFF : Nat) : Int)

/-- `((uint16_t)lepton >> 8) & 0xFF`, returned as `uint8_t`. -/
def Lepton_To_Cell_Coord_Chop (lepton : Int) : Nat :=
  toUInt8 (((toUInt16 lepton >>> 8) &&& 0xFF : Nat) : Int)

/-- `lepton & 0xFF`, returned as `uint8_t`. -/
def Lepton_Sub_Cell (lepton : Int) : Nat :=
  toUInt8 (intAnd lepton 0xFF)

/-! ## Distance between targets -/

/-- `Coord_Distance(As_Coord(target1), As_Coord(target1))`. The functions
`As_Coord` (`target.h`) and `Coord_Distance` (declared, not defined, in
`coord.h`) are parameters. -/
def Target_Distance {target_t : Type} (As_Coord : target_t → Nat)
    (Coord_Distance : Nat → Nat → Int) (target1 target2 : target_t) : Int :=
  Coord_Distance (As_Coord target1) (As_Coord target1)

/-! ## Sample data -/

/-- A sample content for the external table `AdjacentCoord`: eight coordinate deltas,
one per compass facing, north first and clockwise. -/
def sampleAdjacentCoord : Fin 8 → Nat := fun i =>
  [0xFF000000, 0xFF000100, 0x00000100, 0x01000100,
   0x01000000, 0x0100FF00, 0x0000FF00, 0xFF00FF00].getD i.val 0


/-! ## Arithmetic reading of the machine operations -/

theorem toInt32_of_range (v : Int) (h1 : -2147483648 ≤ v) (h2 : v ≤ 2147483647) :
    toInt32 v = v := by
  unfold toInt32; omega

theorem toInt16_of_range (v : Int) (h1 : -32768 ≤ v) (h2 : v ≤ 32767) :
    toInt16 v = v := by
  unfold toInt16; omega

theorem toUInt32_toInt32 (v : Int) : toUInt32 (toInt32 v) = toUInt32 v := by
  unfold toUInt32 toInt32; omega

theorem toUInt32_natCast (n : Nat) (h : n < 4294967296) : toUInt32 (n : Int) = n := by
  unfold toUInt32; omega

theorem tdiv_eq_ite (a b : Int) (hb : 0 ≤ b) :
    Int.tdiv a b = if 0 ≤ a then a / b else -((-a) / b) := by
  split
  · next h => exact Int.tdiv_eq_ediv h hb
  · next h =>
    have h1 : Int.tdiv (-a) b = (-a) / b := Int.tdiv_eq_ediv (by omega) hb
    rw [Int.neg_tdiv] at h1
    omega

theorem intSar_eq_div (a : Int) : intSar a 8 = a / 256 := by
  unfold intSar
  rw [Int.shiftRight_eq_div_pow]
  norm_num

/-- Masking with a run of `n` ones starting at bit `k` extracts that bit field. -/
theorem and_mask_shl (c n k : Nat) :
    c &&& ((2 ^ n - 1) <<< k) = (c / 2 ^ k % 2 ^ n) * 2 ^ k := by
  rw [← Nat.shiftLeft_eq, ← Nat.shiftRight_eq_div_pow]
  apply Nat.eq_of_testBit_eq
  intro i
  simp only [Nat.testBit_and, Nat.testBit_shiftLeft, Nat.testBit_two_pow_sub_one,
    Nat.testBit_mod_two_pow, Nat.testBit_shiftRight]
  by_cases h : i ≥ k
  · have e : k + (i - k) = i := by omega
    simp [h, e, Bool.and_comm]
  · simp [h]

/-- A value below `2^k` occupies bits disjoint from any multiple of `2^k`. -/
theorem or_eq_add (a b k : Nat) (hb : b < 2 ^ k) : a * 2 ^ k ||| b = a * 2 ^ k + b := by
  rw [Nat.mul_comm a (2 ^ k)]
  exact (Nat.mul_add_lt_is_or hb a).symm

theorem and_0000FFFF (c : Nat) : c &&& 0x0000FFFF = c % 65536 :=
  Nat.and_pow_two_sub_one_eq_mod c 16

theorem and_000000FF (c : Nat) : c &&& 0xFF = c % 256 :=
  Nat.and_pow_two_sub_one_eq_mod c 8

theorem and_FFFF0000 (c : Nat) : c &&& 0xFFFF0000 = (c / 65536 % 65536) * 65536 :=
  and_mask_shl c 16 16

theorem and_0000FF00 (c : Nat) : c &&& 0x0000FF00 = (c / 256 % 256) * 256 :=
  and_mask_shl c 8 8

theorem and_00FF0000 (c : Nat) : c &&& 0x00FF0000 = (c / 65536 % 256) * 65536 :=
  and_mask_shl c 8 16

theorem and_FF000000 (c : Nat) : c &&& 0xFF000000 = (c / 16777216 % 256) * 16777216 :=
  and_mask_shl c 8 24

theorem and_00007F00 (c : Nat) : c &&& 0x00007F00 = (c / 256 % 128) * 256 :=
  and_mask_shl c 7 8

theorem and_7F000000 (c : Nat) : c &&& 0x7F000000 = (c / 16777216 % 128) * 16777216 :=
  and_mask_shl c 7 24

theorem and_00008000 (c : Nat) : c &&& 0x00008000 = (c / 32768 % 2) * 32768 :=
  and_mask_shl c 1 15

theorem and_80000000 (c : Nat) : c &&& 0x80000000 = (c / 2147483648 % 2) * 2147483648 :=
  and_mask_shl c 1 31

theorem and_FF00FF00 (c : Nat) :
    c &&& 0xFF00FF00 = (c / 16777216 % 256) * 16777216 + (c / 256 % 256) * 256 := by
  have h : (0xFF00FF00 : Nat) = 0xFF000000 ||| 0x0000FF00 := by decide
  rw [h, Nat.and_or_distrib_left, and_FF000000, and_0000FF00]
  exact or_eq_add _ _ 24 (by omega)

theorem and_00FF00FF (c : Nat) :
    c &&& 0x00FF00FF = (c / 65536 % 256) * 65536 + c % 256 := by
  have h : (0x00FF00FF : Nat) = 0x00FF0000 ||| 0xFF := by decide
  rw [h, Nat.and_or_distrib_left, and_00FF0000, and_000000FF]
  exact or_eq_add _ _ 16 (by omega)

theorem and_80008000 (c : Nat) :
    c &&& 0x80008000 = (c / 2147483648 % 2) * 2147483648 + (c / 32768 % 2) * 32768 := by
  have h : (0x80008000 : Nat) = 0x80000000 ||| 0x00008000 := by decide
  rw [h, Nat.and_or_distrib_left, and_80000000, and_00008000]
  exact or_eq_add _ _ 31 (by omega)

/-- Four bytes placed at bit offsets 24, 16, 8 and 0 combine without carries. -/
theorem or_bytes (b3 b2 b1 b0 : Nat) (h2 : b2 < 256) (h1 : b1 < 256) (h0 : b0 < 256) :
    b3 * 16777216 ||| (b2 * 65536 ||| (b1 * 256 ||| b0))
      = b3 * 16777216 + b2 * 65536 + b1 * 256 + b0 := by
  have e1 : b1 * 256 ||| b0 = b1 * 256 + b0 := or_eq_add b1 b0 8 (by omega)
  have e2 : b2 * 65536 ||| (b1 * 256 + b0) = b2 * 65536 + (b1 * 256 + b0) :=
    or_eq_add b2 _ 16 (by omega)
  have e3 : b3 * 16777216 ||| (b2 * 65536 + (b1 * 256 + b0))
      = b3 * 16777216 + (b2 * 65536 + (b1 * 256 + b0)) := or_eq_add b3 _ 24 (by omega)
  rw [e1, e2, e3]
  omega

theorem Coord_Lepton_X_eq (c : Nat) :
    Coord_Lepton_X c = toInt16 ((c % 65536 : Nat) : Int) := by
  unfold Coord_Lepton_X
  rw [and_0000FFFF]

theorem Coord_Lepton_Y_eq (c : Nat) :
    Coord_Lepton_Y c = toInt16 ((c / 65536 % 65536 : Nat) : Int) := by
  unfold Coord_Lepton_Y
  rw [and_FFFF0000, Nat.shiftRight_eq_div_pow]
  congr 2
  omega

theorem Coord_Sub_Cell_X_eq (c : Nat) : Coord_Sub_Cell_X c = ((c % 256 : Nat) : Int) := by
  unfold Coord_Sub_Cell_X
  rw [and_000000FF]
  exact toInt16_of_range _ (by omega) (by omega)

theorem Coord_Sub_Cell_Y_eq (c : Nat) :
    Coord_Sub_Cell_Y c = ((c / 65536 % 256 : Nat) : Int) := by
  unfold Coord_Sub_Cell_Y
  rw [and_000000FF, Nat.shiftRight_eq_div_pow]
  exact toInt16_of_range _ (by omega) (by omega)

theorem Coord_From_Lepton_XY_eq (x y : Int) :
    Coord_From_Lepton_XY x y = toUInt16 y * 65536 + toUInt16 x := by
  unfold Coord_From_Lepton_XY intOr intAnd intShl
  have hm : toUInt32 0xFFFF = 0x0000FFFF := by decide
  rw [toUInt32_toInt32, toUInt32_toInt32, toUInt32_toInt32, hm, and_0000FFFF]
  have hx : toUInt32 ((toUInt32 x % 65536 : Nat) : Int) = toUInt16 x := by
    unfold toUInt32 toUInt16; omega
  have hy : toUInt32 (y * 2 ^ 16) = toUInt16 y * 2 ^ 16 := by
    unfold toUInt32 toUInt16; omega
  have hlt : toUInt16 x < 2 ^ 16 := by unfold toUInt16; omega
  have hlt2 : toUInt16 y < 65536 := by unfold toUInt16; omega
  rw [hx, hy, Nat.lor_comm, or_eq_add _ _ 16 hlt]
  rw [toUInt32_natCast _ (by omega)]
  norm_num


theorem Coord_Top_Left_eq (c : Nat) :
    Coord_Top_Left c = (c / 16777216 % 256) * 16777216 + (c / 256 % 256) * 256 := by
  unfold Coord_Top_Left
  exact and_FF00FF00 c

theorem Coord_Sub_Cell_eq (c : Nat) :
    Coord_Sub_Cell c = (c / 65536 % 256) * 65536 + c % 256 := by
  unfold Coord_Sub_Cell
  exact and_00FF00FF c

theorem Coord_Centered_eq (c : Nat) :
    Coord_Centered c
      = (c / 16777216 % 256) * 16777216 + 128 * 65536 + (c / 256 % 256) * 256 + 128 := by
  unfold Coord_Centered
  have hm : (0xFF00FF00 : Nat) = 0xFF000000 ||| 0x0000FF00 := by decide
  have hk : (0x00800080 : Nat) = 128 * 65536 ||| 128 := by decide
  rw [hm, hk, Nat.and_or_distrib_left, and_FF000000, and_0000FF00,
    ← or_bytes _ 128 _ 128 (by omega) (by omega) (by omega)]
  ac_rfl

theorem Coord_Cell_X_eq (c : Nat) : Coord_Cell_X c = c / 256 % 128 := by
  unfold Coord_Cell_X toUInt8
  rw [and_00007F00, Nat.shiftRight_eq_div_pow]
  omega

theorem Coord_Cell_Y_eq (c : Nat) : Coord_Cell_Y c = c / 16777216 % 128 := by
  unfold Coord_Cell_Y toUInt8
  rw [and_7F000000, Nat.shiftRight_eq_div_pow]
  omega

theorem Cell_From_XY_eq (x y : Nat) :
    Cell_From_XY x y = (((y % 128) * 128 + x % 128 : Nat) : Int) := by
  unfold Cell_From_XY intAdd intMul MAP_MAX_WIDTH
  rw [toInt32_of_range (((y % 128 : Nat) : Int) * ((128 : Nat) : Int)) (by omega) (by omega),
    toInt32_of_range _ (by omega) (by omega), toInt16_of_range _ (by omega) (by omega)]
  push_cast
  rfl

theorem Cell_Get_X_eq (n : Int) : Cell_Get_X n = toUInt32 n % 128 := by
  unfold Cell_Get_X toUInt8 MAP_MAX_WIDTH
  omega

theorem Cell_Get_Y_eq (n : Int) : Cell_Get_Y n = toUInt32 n / 128 % 256 := by
  unfold Cell_Get_Y toUInt8 MAP_MAX_HEIGHT
  omega

theorem Pixel_To_Lepton_eq (p : Int) (hlo : -3072 ≤ p) (hhi : p ≤ 3071) :
    Pixel_To_Lepton p = Int.tdiv (p * 256 + 12) 24 := by
  unfold Pixel_To_Lepton intDiv intAdd intShl
  have e1 : p * 2 ^ 8 = p * 256 := by norm_num
  rw [e1, toInt32_of_range (p * 256) (by omega) (by omega),
    toInt32_of_range (p * 256 + 12) (by omega) (by omega)]
  have e2 := tdiv_eq_ite (p * 256 + 12) 24 (by decide)
  rw [toInt32_of_range _ (by rw [e2]; split <;> omega) (by rw [e2]; split <;> omega)]
  exact toInt16_of_range _ (by rw [e2]; split <;> omega) (by rw [e2]; split <;> omega)

theorem Lepton_To_Pixel_eq (l : Int) (h : IsInt16 l) :
    Lepton_To_Pixel l = (24 * l + 128) / 256 := by
  obtain ⟨h1, h2⟩ := h
  unfold Lepton_To_Pixel intAdd intMul
  rw [intSar_eq_div, toInt32_of_range (24 * l) (by omega) (by omega),
    toInt32_of_range (24 * l + 128) (by omega) (by omega)]

theorem toInt16_toInt32 (v : Int) : toInt16 (toInt32 v) = toInt16 v := by
  unfold toInt16 toInt32; omega

theorem toInt16_idem (v : Int) : toInt16 (toInt16 v) = toInt16 v := by
  unfold toInt16; omega

theorem toInt16_isInt16 (v : Int) : IsInt16 (toInt16 v) := by
  unfold IsInt16 toInt16; omega

theorem Coord_Lepton_X_from (x y : Int) :
    Coord_Lepton_X (Coord_From_Lepton_XY x y) = toInt16 x := by
  rw [Coord_Lepton_X_eq, Coord_From_Lepton_XY_eq]
  unfold toInt16 toUInt16; omega

theorem Coord_Lepton_Y_from (x y : Int) :
    Coord_Lepton_Y (Coord_From_Lepton_XY x y) = toInt16 y := by
  rw [Coord_Lepton_Y_eq, Coord_From_Lepton_XY_eq]
  unfold toInt16 toUInt16; omega

/-! ## Lepton / pixel round trip -/

/-- C1. Pixel round trip: for every pixel `p` with `-3072 ≤ p ≤ 3071` the lepton image
`((p << 8) + 12) / 24` is computed without any wrap, `Lepton_To_Pixel (Pixel_To_Lepton p) = p`,
and therefore the lepton `Pixel_To_Lepton p` is reproduced by lepton → pixel → lepton. -/
theorem pixel_round_trip (p : Int) (hlo : -3072 ≤ p) (hhi : p ≤ 3071) :
    Lepton_To_Pixel (Pixel_To_Lepton p) = p ∧
    Pixel_To_Lepton (Lepton_To_Pixel (Pixel_To_Lepton p)) = Pixel_To_Lepton p ∧
    Pixel_To_Lepton p = Int.tdiv (p * 256 + 12) 24 := by
  have e := Pixel_To_Lepton_eq p hlo hhi
  have e2 := tdiv_eq_ite (p * 256 + 12) 24 (by decide)
  have key : Lepton_To_Pixel (Pixel_To_Lepton p) = p := by
    rw [Lepton_To_Pixel_eq _ (by rw [e, e2]; unfold IsInt16; split <;> omega), e, e2]
    split <;> omega
  exact ⟨key, by rw [key], e⟩

/-- The round trip at the lowest pixel of the range, `p = -3072`. -/
theorem pixel_round_trip_witness :
    Lepton_To_Pixel (Pixel_To_Lepton (-3072)) = -3072 ∧
    Pixel_To_Lepton (Lepton_To_Pixel (Pixel_To_Lepton (-3072))) = Pixel_To_Lepton (-3072) ∧
    Pixel_To_Lepton (-3072) = Int.tdiv (-3072 * 256 + 12) 24 :=
  pixel_round_trip (-3072) (by decide) (by decide)

/-! ## Coordinate codec -/

/-- C2. Codec inverse: for all signed 16-bit leptons `x` and `y`, negative ones included,
unpacking `Coord_From_Lepton_XY x y` gives back `x` and `y`. -/
theorem codec_inverse (x y : Int) (hx : IsInt16 x) (hy : IsInt16 y) :
    Coord_Lepton_X (Coord_From_Lepton_XY x y) = x ∧
    Coord_Lepton_Y (Coord_From_Lepton_XY x y) = y := by
  rw [Coord_Lepton_X_from, Coord_Lepton_Y_from]
  exact ⟨toInt16_of_range x hx.1 hx.2, toInt16_of_range y hy.1 hy.2⟩

/-- The codec inverse at the two extreme leptons `-32768` and `32767`. -/
theorem codec_inverse_witness :
    Coord_Lepton_X (Coord_From_Lepton_XY (-32768) 32767) = -32768 ∧
    Coord_Lepton_Y (Coord_From_Lepton_XY (-32768) 32767) = 32767 :=
  codec_inverse (-32768) 32767 (by decide) (by decide)

/-! ## Distance between targets -/

/-- C3. `Target_Distance` never reads its second target: whatever `As_Coord` and
`Coord_Distance` are, the result is `Coord_Distance (As_Coord t1) (As_Coord t1)`. With
targets that are their own coordinate and the distance taken along the X lepton, the
targets `0` and `256` are at distance `256` but `Target_Distance` returns `0`. -/
theorem Target_Distance_same_operand :
    (∀ (As_Coord : Int → Nat) (Coord_Distance : Nat → Nat → Int) (t1 t2 : Int),
      Target_Distance As_Coord Coord_Distance t1 t2
        = Coord_Distance (As_Coord t1) (As_Coord t1)) ∧
    Target_Distance toUInt32 (fun a b => |Coord_Lepton_X a - Coord_Lepton_X b|) 0 256 = 0 ∧
    (fun a b => |Coord_Lepton_X a - Coord_Lepton_X b|) (toUInt32 0) (toUInt32 256) = 256 := by
  refine ⟨fun _ _ _ _ => rfl, ?_, ?_⟩
  · simp [Target_Distance]
  · decide

/-! ## Cell grid -/

/-- C4 (as stated). The cell `16384` is a 16-bit `cell_t` value accepted by `Valid_Cell`,
yet `Cell_From_XY (Cell_Get_X 16384) (Cell_Get_Y 16384)` is `0`, not `16384`. -/
theorem cell_inverse_off_grid :
    IsInt16 16384 ∧ Valid_Cell 16384 = true ∧
    Cell_From_XY (Cell_Get_X 16384) (Cell_Get_Y 16384) = 0 ∧
    Cell_From_XY (Cell_Get_X 16384) (Cell_Get_Y 16384) ≠ 16384 := by
  decide

/-- C4 (amended). For every 16-bit cell `n` accepted by `Valid_Cell`, the cell inverse
`Cell_From_XY (Cell_Get_X n) (Cell_Get_Y n) = n` holds exactly when `n` lies on the
128×128 grid, `1 ≤ n ≤ 16383`. -/
theorem cell_inverse_on_grid (n : Int) (hn : IsInt16 n) (hv : Valid_Cell n = true) :
    Cell_From_XY (Cell_Get_X n) (Cell_Get_Y n) = n ↔ (1 ≤ n ∧ n ≤ 16383) := by
  have hne : n ≠ 0 := by simpa [Valid_Cell] using hv
  obtain ⟨h1, h2⟩ := hn
  rw [Cell_From_XY_eq, Cell_Get_X_eq, Cell_Get_Y_eq]
  unfold toUInt32
  omega

/-- The cell inverse at the valid cell `389` (x = 5, y = 3). -/
theorem cell_inverse_on_grid_witness :
    Cell_From_XY (Cell_Get_X 389) (Cell_Get_Y 389) = 389 ↔ ((1 : Int) ≤ 389 ∧ (389 : Int) ≤ 16383) :=
  cell_inverse_on_grid 389 (by decide) (by decide)


theorem Coord_Add_eq (a b : Nat) :
    Coord_Add a b = Coord_From_Lepton_XY (toInt16 (Coord_Lepton_X a + Coord_Lepton_X b))
      (toInt16 (Coord_Lepton_Y a + Coord_Lepton_Y b)) := by
  unfold Coord_Add intAdd
  simp only [toInt16_toInt32]

theorem Coord_Subtract_eq (a b : Nat) :
    Coord_Subtract a b = Coord_From_Lepton_XY (toInt16 (Coord_Lepton_X a - Coord_Lepton_X b))
      (toInt16 (Coord_Lepton_Y a - Coord_Lepton_Y b)) := by
  unfold Coord_Subtract intSub
  simp only [toInt16_toInt32]

theorem Coord_From_Lepton_XY_lt (x y : Int) : Coord_From_Lepton_XY x y < 4294967296 := by
  rw [Coord_From_Lepton_XY_eq]
  unfold toUInt16; omega

/-- C5. `Coord_Add` and `Coord_Subtract` work on each 16-bit field separately. Read as
`lepton_t`, the X (Y) lepton of the result is the sum or difference of the X (Y) leptons
wrapped to 16 bits; read as raw 16-bit fields, the low (high) half of the result is that
sum or difference modulo `2^16`. Replacing the Y leptons of both inputs by arbitrary
`ya`, `yb` leaves the X lepton of the result unchanged, and likewise with X and Y
exchanged. -/
theorem coord_add_subtract_componentwise (a b : Nat) :
    (Coord_Lepton_X (Coord_Add a b) = toInt16 (Coord_Lepton_X a + Coord_Lepton_X b) ∧
     Coord_Lepton_Y (Coord_Add a b) = toInt16 (Coord_Lepton_Y a + Coord_Lepton_Y b) ∧
     Coord_Lepton_X (Coord_Subtract a b) = toInt16 (Coord_Lepton_X a - Coord_Lepton_X b) ∧
     Coord_Lepton_Y (Coord_Subtract a b) = toInt16 (Coord_Lepton_Y a - Coord_Lepton_Y b)) ∧
    (((Coord_Add a b % 65536 : Nat) : Int) = (Coord_Lepton_X a + Coord_Lepton_X b) % 65536 ∧
     ((Coord_Add a b / 65536 : Nat) : Int) = (Coord_Lepton_Y a + Coord_Lepton_Y b) % 65536 ∧
     ((Coord_Subtract a b % 65536 : Nat) : Int)
       = (Coord_Lepton_X a - Coord_Lepton_X b) % 65536 ∧
     ((Coord_Subtract a b / 65536 : Nat) : Int)
       = (Coord_Lepton_Y a - Coord_Lepton_Y b) % 65536) ∧
    (∀ ya yb : Int,
      Coord_Lepton_X (Coord_Add (Coord_From_Lepton_XY (Coord_Lepton_X a) ya)
        (Coord_From_Lepton_XY (Coord_Lepton_X b) yb)) = Coord_Lepton_X (Coord_Add a b) ∧
      Coord_Lepton_X (Coord_Subtract (Coord_From_Lepton_XY (Coord_Lepton_X a) ya)
        (Coord_From_Lepton_XY (Coord_Lepton_X b) yb)) = Coord_Lepton_X (Coord_Subtract a b)) ∧
    (∀ xa xb : Int,
      Coord_Lepton_Y (Coord_Add (Coord_From_Lepton_XY xa (Coord_Lepton_Y a))
        (Coord_From_Lepton_XY xb (Coord_Lepton_Y b))) = Coord_Lepton_Y (Coord_Add a b) ∧
      Coord_Lepton_Y (Coord_Subtract (Coord_From_Lepton_XY xa (Coord_Lepton_Y a))
        (Coord_From_Lepton_XY xb (Coord_Lepton_Y b))) = Coord_Lepton_Y (Coord_Subtract a b)) := by
  have hxa : toInt16 (Coord_Lepton_X a) = Coord_Lepton_X a := by
    unfold Coord_Lepton_X; exact toInt16_idem _
  have hxb : toInt16 (Coord_Lepton_X b) = Coord_Lepton_X b := by
    unfold Coord_Lepton_X; exact toInt16_idem _
  have hya : toInt16 (Coord_Lepton_Y a) = Coord_Lepton_Y a := by
    unfold Coord_Lepton_Y; exact toInt16_idem _
  have hyb : toInt16 (Coord_Lepton_Y b) = Coord_Lepton_Y b := by
    unfold Coord_Lepton_Y; exact toInt16_idem _
  refine ⟨?_, ?_, ?_, ?_⟩
  · simp only [Coord_Add_eq, Coord_Subtract_eq, Coord_Lepton_X_from, Coord_Lepton_Y_from,
      toInt16_idem, and_self]
  · simp only [Coord_Add_eq, Coord_Subtract_eq, Coord_From_Lepton_XY_eq]
    generalize Coord_Lepton_X a = xa
    generalize Coord_Lepton_X b = xb
    generalize Coord_Lepton_Y a = ya
    generalize Coord_Lepton_Y b = yb
    unfold toUInt16 toInt16
    refine ⟨?_, ?_, ?_, ?_⟩ <;> omega
  · intro ya yb
    simp only [Coord_Add_eq, Coord_Subtract_eq, Coord_Lepton_X_from, Coord_Lepton_Y_from,
      toInt16_idem, hxa, hxb, and_self]
  · intro xa xb
    simp only [Coord_Add_eq, Coord_Subtract_eq, Coord_Lepton_X_from, Coord_Lepton_Y_from,
      toInt16_idem, hya, hyb, and_self]

/-- C6. The snapping helpers are idempotent: centering a centered coordinate, or taking
the top-left corner of a top-left corner, changes nothing. -/
theorem snapping_idempotent (c : Nat) :
    Coord_Centered (Coord_Centered c) = Coord_Centered c ∧
    Coord_Top_Left (Coord_Top_Left c) = Coord_Top_Left c := by
  constructor
  · rw [Coord_Centered_eq (Coord_Centered c), Coord_Centered_eq c]
    omega
  · rw [Coord_Top_Left_eq (Coord_Top_Left c), Coord_Top_Left_eq c]
    omega

/-- C7. `Coord_Centered` snaps to the centre of the cell the input falls in: both sub-cell
bytes of the result are `0x80`, and the cell-grid component is kept, both as the
top-left corner and as the cell index. -/
theorem centered_snaps_to_cell_center (c : Nat) :
    Coord_Sub_Cell_X (Coord_Centered c) = 0x80 ∧
    Coord_Sub_Cell_Y (Coord_Centered c) = 0x80 ∧
    Coord_Top_Left (Coord_Centered c) = Coord_Top_Left c ∧
    Coord_To_Cell (Coord_Centered c) = Coord_To_Cell c := by
  refine ⟨?_, ?_, ?_, ?_⟩
  · rw [Coord_Sub_Cell_X_eq, Coord_Centered_eq]
    omega
  · rw [Coord_Sub_Cell_Y_eq, Coord_Centered_eq]
    omega
  · rw [Coord_Top_Left_eq (Coord_Centered c), Coord_Top_Left_eq c, Coord_Centered_eq]
    omega
  · unfold Coord_To_Cell
    have hx : Coord_Cell_X (Coord_Centered c) = Coord_Cell_X c := by
      rw [Coord_Cell_X_eq, Coord_Cell_X_eq, Coord_Centered_eq]
      omega
    have hy : Coord_Cell_Y (Coord_Centered c) = Coord_Cell_Y c := by
      rw [Coord_Cell_Y_eq, Coord_Cell_Y_eq, Coord_Centered_eq]
      omega
    rw [hx, hy]


/-- C8. `Coord_Get_Adjacent` always lands on a cell midpoint. For every table length
`FACING_COUNT > 0`, every content of the `AdjacentCoord` table, every coordinate `c` and
every facing value `f` (negative ones included: the index `(unsigned)f % FACING_COUNT`
is below `FACING_COUNT`), the result has both sub-cell bytes equal to `0x80` and is a
fixed point of `Coord_Centered`. -/
theorem get_adjacent_centered (FACING_COUNT : Nat) (hcount : 0 < FACING_COUNT)
    (AdjacentCoord : Fin FACING_COUNT → Nat) (c : Nat) (f : Int) :
    toUInt32 f % FACING_COUNT < FACING_COUNT ∧
    Coord_Sub_Cell_X (Coord_Get_Adjacent FACING_COUNT hcount AdjacentCoord c f) = 0x80 ∧
    Coord_Sub_Cell_Y (Coord_Get_Adjacent FACING_COUNT hcount AdjacentCoord c f) = 0x80 ∧
    Coord_Centered (Coord_Get_Adjacent FACING_COUNT hcount AdjacentCoord c f)
      = Coord_Get_Adjacent FACING_COUNT hcount AdjacentCoord c f := by
  unfold Coord_Get_Adjacent
  generalize Coord_Add c (AdjacentCoord ⟨toUInt32 f % FACING_COUNT, _⟩) = s
  refine ⟨Nat.mod_lt _ hcount, ?_, ?_, ?_⟩
  · rw [Coord_Sub_Cell_X_eq, Coord_Centered_eq]
    omega
  · rw [Coord_Sub_Cell_Y_eq, Coord_Centered_eq]
    omega
  · rw [Coord_Centered_eq (Coord_Centered s), Coord_Centered_eq s]
    omega

/-- The adjacency query with eight facings, the top-left corner of cell `389` as
coordinate and the facing value `-1`. -/
theorem get_adjacent_centered_witness :
    toUInt32 (-1) % 8 < 8 ∧
    Coord_Sub_Cell_X (Coord_Get_Adjacent 8 (Nat.succ_pos 7) sampleAdjacentCoord 0x03000500 (-1))
      = 0x80 ∧
    Coord_Sub_Cell_Y (Coord_Get_Adjacent 8 (Nat.succ_pos 7) sampleAdjacentCoord 0x03000500 (-1))
      = 0x80 ∧
    Coord_Centered (Coord_Get_Adjacent 8 (Nat.succ_pos 7) sampleAdjacentCoord 0x03000500 (-1))
      = Coord_Get_Adjacent 8 (Nat.succ_pos 7) sampleAdjacentCoord 0x03000500 (-1) :=
  get_adjacent_centered 8 (Nat.succ_pos 7) sampleAdjacentCoord 0x03000500 (-1)

/-- C9. `Cell_From_XY` wraps instead of clamping and stays on the grid: for all `x`, `y`
(in particular all 8-bit ones) the result is `(y mod 128) * 128 + (x mod 128)`, lies in
`0 .. 16383`, and is unchanged when `x` or `y` is moved by 128 modulo 256. At `(5, 3)` it
is `389`. -/
theorem cell_from_xy_wraps (x y : Nat) :
    Cell_From_XY x y = (((y % 128) * 128 + x % 128 : Nat) : Int) ∧
    (0 ≤ Cell_From_XY x y ∧ Cell_From_XY x y ≤ 16383) ∧
    Cell_From_XY ((x + 128) % 256) y = Cell_From_XY x y ∧
    Cell_From_XY x ((y + 128) % 256) = Cell_From_XY x y ∧
    Cell_From_XY 5 3 = 389 := by
  refine ⟨Cell_From_XY_eq x y, ?_, ?_, ?_, by decide⟩
  · rw [Cell_From_XY_eq]
    omega
  · rw [Cell_From_XY_eq, Cell_From_XY_eq]
    omega
  · rw [Cell_From_XY_eq, Cell_From_XY_eq]
    omega

/-- C10. `Cell_Get_X` and `Cell_Get_Y` undo `Cell_From_XY` on the grid: for `x, y < 128`
the cell `Cell_From_XY x y` has X index `x` and Y index `y`; the cell `389` has X index
`5` and Y index `3`. -/
theorem cell_get_xy_of_from_xy (x y : Nat) (hx : x < 128) (hy : y < 128) :
    Cell_Get_X (Cell_From_XY x y) = x ∧
    Cell_Get_Y (Cell_From_XY x y) = y ∧
    Cell_Get_X 389 = 5 ∧ Cell_Get_Y 389 = 3 := by
  refine ⟨?_, ?_, by decide, by decide⟩
  · rw [Cell_Get_X_eq, Cell_From_XY_eq]
    unfold toUInt32
    omega
  · rw [Cell_Get_Y_eq, Cell_From_XY_eq]
    unfold toUInt32
    omega

/-- The cell indices of the last cell of the grid, `(127, 127)`. -/
theorem cell_get_xy_of_from_xy_witness :
    Cell_Get_X (Cell_From_XY 127 127) = 127 ∧
    Cell_Get_Y (Cell_From_XY 127 127) = 127 ∧
    Cell_Get_X 389 = 5 ∧ Cell_Get_Y 389 = 3 :=
  cell_get_xy_of_from_xy 127 127 (by decide) (by decide)

/-! ## Arithmetic reading of the cell to coordinate conversions -/

theorem toUInt8_lt (v : Int) : toUInt8 v < 256 := by
  unfold toUInt8; omega

theorem Cell_Get_X_lt (n : Int) : Cell_Get_X n < 256 := by
  unfold Cell_Get_X; exact toUInt8_lt _

theorem Cell_Get_Y_lt (n : Int) : Cell_Get_Y n < 256 := by
  unfold Cell_Get_Y; exact toUInt8_lt _

theorem toUInt32_intShl (b k : Nat) (h : b * 2 ^ k < 4294967296) :
    toUInt32 (intShl (b : Int) k) = b * 2 ^ k := by
  unfold intShl
  rw [toUInt32_toInt32]
  have e : ((b : Int) * 2 ^ k) = ((b * 2 ^ k : Nat) : Int) := by push_cast; rfl
  rw [e, toUInt32_natCast _ h]

theorem toUInt32_intOr (a b : Int) (h : toUInt32 a ||| toUInt32 b < 4294967296) :
    toUInt32 (intOr a b) = toUInt32 a ||| toUInt32 b := by
  unfold intOr
  rw [toUInt32_toInt32, toUInt32_natCast _ h]

theorem Cell_To_Coord_Top_Left_bytes (x y : Nat) (hx : x < 256) (hy : y < 256) :
    toUInt32 (intOr (intShl (x : Int) 8) (intShl (y : Int) 24)) = y * 16777216 + x * 256 := by
  have ex : toUInt32 (intShl (x : Int) 8) = x * 256 := toUInt32_intShl x 8 (by omega)
  have ey : toUInt32 (intShl (y : Int) 24) = y * 16777216 := toUInt32_intShl y 24 (by omega)
  have e : x * 256 ||| y * 16777216 = y * 16777216 + x * 256 := by
    rw [Nat.lor_comm]; exact or_eq_add y (x * 256) 24 (by omega)
  rw [toUInt32_intOr _ _ (by rw [ex, ey, e]; omega), ex, ey, e]

theorem Cell_To_Coord_bytes (x y : Nat) (hx : x < 256) (hy : y < 256) :
    toUInt32 (intOr (intOr 0x00800080 (intShl (x : Int) 8)) (intShl (y : Int) 24))
      = y * 16777216 + 128 * 65536 + x * 256 + 128 := by
  have ex : toUInt32 (intShl (x : Int) 8) = x * 256 := toUInt32_intShl x 8 (by omega)
  have ey : toUInt32 (intShl (y : Int) 24) = y * 16777216 := toUInt32_intShl y 24 (by omega)
  have ek : toUInt32 0x00800080 = 128 * 65536 ||| 128 := by decide
  have e1 : (128 * 65536 ||| 128) ||| x * 256 = 128 * 65536 + x * 256 + 128 := by
    have h := or_bytes 0 128 x 128 (by omega) hx (by omega)
    have h0 : 0 * 16777216 ||| (128 * 65536 ||| (x * 256 ||| 128))
        = 128 * 65536 ||| (x * 256 ||| 128) := by simp
    rw [h0] at h
    rw [show 128 * 65536 + x * 256 + 128 = 0 * 16777216 + 128 * 65536 + x * 256 + 128 by omega,
      ← h]
    ac_rfl
  have e2 : (128 * 65536 + x * 256 + 128) ||| y * 16777216
      = y * 16777216 + 128 * 65536 + x * 256 + 128 := by
    rw [Nat.lor_comm]
    exact (or_eq_add y _ 24 (by omega)).trans (by omega)
  have i1 : toUInt32 (intOr 0x00800080 (intShl (x : Int) 8)) = 128 * 65536 + x * 256 + 128 := by
    rw [toUInt32_intOr _ _ (by rw [ex, ek, e1]; omega), ex, ek, e1]
  rw [toUInt32_intOr _ _ (by rw [i1, ey, e2]; omega), i1, ey, e2]

theorem Cell_To_Coord_eq (n : Int) :
    Cell_To_Coord n = Cell_Get_Y n * 16777216 + 128 * 65536 + Cell_Get_X n * 256 + 128 :=
  Cell_To_Coord_bytes _ _ (Cell_Get_X_lt n) (Cell_Get_Y_lt n)

theorem Cell_To_Coord_Top_Left_eq (n : Int) :
    Cell_To_Coord_Top_Left n = Cell_Get_Y n * 16777216 + Cell_Get_X n * 256 :=
  Cell_To_Coord_Top_Left_bytes _ _ (Cell_Get_X_lt n) (Cell_Get_Y_lt n)

/-! ## Cell centres, pixel snapping and validity -/

/-- C11. `Cell_To_Coord` builds the centre coordinate of the cell: for every cell index
`n` on the 128×128 grid (`0 ≤ n < 16384`) the coordinate converts back to `n` and both
of its sub-cell bytes are `0x80`. -/
theorem cell_to_coord_center (n : Int) (hlo : 0 ≤ n) (hhi : n < 16384) :
    Coord_To_Cell (Cell_To_Coord n) = n ∧
    Coord_Sub_Cell_X (Cell_To_Coord n) = 0x80 ∧
    Coord_Sub_Cell_Y (Cell_To_Coord n) = 0x80 := by
  have hx : Cell_Get_X n = n.toNat % 128 := by
    rw [Cell_Get_X_eq]; unfold toUInt32; omega
  have hy : Cell_Get_Y n = n.toNat / 128 := by
    rw [Cell_Get_Y_eq]; unfold toUInt32; omega
  have hc := Cell_To_Coord_eq n
  rw [hx, hy] at hc
  refine ⟨?_, ?_, ?_⟩
  · unfold Coord_To_Cell
    rw [Cell_From_XY_eq, Coord_Cell_X_eq, Coord_Cell_Y_eq, hc]
    omega
  · rw [Coord_Sub_Cell_X_eq, hc]
    omega
  · rw [Coord_Sub_Cell_Y_eq, hc]
    omega

/-- The centre coordinate of cell `389` (x = 5, y = 3). -/
theorem cell_to_coord_center_witness :
    Coord_To_Cell (Cell_To_Coord 389) = 389 ∧
    Coord_Sub_Cell_X (Cell_To_Coord 389) = 0x80 ∧
    Coord_Sub_Cell_Y (Cell_To_Coord 389) = 0x80 :=
  cell_to_coord_center 389 (by decide) (by decide)

/-- C12 (as stated). Two signed 16-bit leptons for which another pixel-representable
lepton is strictly closer than the result: `-16` is sent to `-10` although
`Pixel_To_Lepton (-2) = -20` is closer, and `32767` is sent to `-32768` (the lepton of
pixel `3072` does not fit `lepton_t`) although `Pixel_To_Lepton 3071 = 32757` is closer. -/
theorem lepton_round_not_nearest :
    (IsInt16 (-16) ∧ Lepton_Round_To_Pixel (-16) = -10 ∧ Pixel_To_Lepton (-2) = -20 ∧
      |Pixel_To_Lepton (-2) - (-16)| < |Lepton_Round_To_Pixel (-16) - (-16)|) ∧
    (IsInt16 32767 ∧ Lepton_Round_To_Pixel 32767 = -32768 ∧ Pixel_To_Lepton 3071 = 32757 ∧
      |Pixel_To_Lepton 3071 - 32767| < |Lepton_Round_To_Pixel 32767 - 32767|) := by
  decide

/-- C12 (amended). For every lepton `l` with `0 ≤ l ≤ 32762` the result of
`Lepton_Round_To_Pixel` is the lepton of a pixel `p` in `-3072 .. 3071`, and no lepton
`Pixel_To_Lepton q` with `-3072 ≤ q ≤ 3071` is strictly closer to `l`. -/
theorem lepton_round_nearest (l : Int) (hlo : 0 ≤ l) (hhi : l ≤ 32762) :
    (∃ p : Int, (-3072 ≤ p ∧ p ≤ 3071) ∧ Lepton_Round_To_Pixel l = Pixel_To_Lepton p) ∧
    ∀ q : Int, -3072 ≤ q → q ≤ 3071 →
      |Lepton_Round_To_Pixel l - l| ≤ |Pixel_To_Lepton q - l| := by
  have hp : Lepton_To_Pixel l = (24 * l + 128) / 256 :=
    Lepton_To_Pixel_eq l ⟨by omega, by omega⟩
  have hp0 : 0 ≤ (24 * l + 128) / 256 := by omega
  have hp1 : (24 * l + 128) / 256 ≤ 3071 := by omega
  have hr : Lepton_Round_To_Pixel l = (256 * ((24 * l + 128) / 256) + 12) / 24 := by
    unfold Lepton_Round_To_Pixel
    rw [hp, Pixel_To_Lepton_eq _ (by omega) hp1, tdiv_eq_ite _ _ (by decide)]
    split <;> omega
  refine ⟨⟨Lepton_To_Pixel l, by rw [hp]; exact ⟨by omega, hp1⟩, rfl⟩, ?_⟩
  intro q hq0 hq1
  rw [hr, Pixel_To_Lepton_eq q hq0 hq1, tdiv_eq_ite _ _ (by decide)]
  generalize hpv : (24 * l + 128) / 256 = p at hp0 hp1
  have hl1 : 256 * p ≤ 24 * l + 128 := by omega
  have hl2 : 24 * l + 128 < 256 * p + 256 := by omega
  have hr1 : 24 * ((256 * p + 12) / 24) ≤ 256 * p + 12 := by omega
  have hr2 : 256 * p + 12 < 24 * ((256 * p + 12) / 24) + 24 := by omega
  have hqp : q = p → (q * 256 + 12) / 24 = (256 * p + 12) / 24 := by
    intro h; rw [h, Int.mul_comm]
  generalize (256 * p + 12) / 24 = r at hr1 hr2 hqp
  split
  · have hs1 : 24 * ((q * 256 + 12) / 24) ≤ q * 256 + 12 := by omega
    have hs2 : q * 256 + 12 < 24 * ((q * 256 + 12) / 24) + 24 := by omega
    generalize (q * 256 + 12) / 24 = s at hs1 hs2 hqp
    rcases abs_cases (r - l) with ⟨e1, _⟩ | ⟨e1, _⟩ <;>
      rcases abs_cases (s - l) with ⟨e2, _⟩ | ⟨e2, _⟩ <;> rw [e1, e2] <;> omega
  · have hs1 : 24 * ((-(q * 256 + 12)) / 24) ≤ -(q * 256 + 12) := by omega
    have hs2 : -(q * 256 + 12) < 24 * ((-(q * 256 + 12)) / 24) + 24 := by omega
    generalize (-(q * 256 + 12)) / 24 = s at hs1 hs2
    rcases abs_cases (r - l) with ⟨e1, _⟩ | ⟨e1, _⟩ <;>
      rcases abs_cases (-s - l) with ⟨e2, _⟩ | ⟨e2, _⟩ <;> rw [e1, e2] <;> omega

/-- The rounding of the largest lepton of the amended range, `l = 32762`. -/
theorem lepton_round_nearest_witness :
    (∃ p : Int, (-3072 ≤ p ∧ p ≤ 3071) ∧ Lepton_Round_To_Pixel 32762 = Pixel_To_Lepton p) ∧
    ∀ q : Int, -3072 ≤ q → q ≤ 3071 →
      |Lepton_Round_To_Pixel 32762 - 32762| ≤ |Pixel_To_Lepton q - 32762| :=
  lepton_round_nearest 32762 (by decide) (by decide)

/-- C13. Whole cell edges convert exactly: for `0 ≤ k ≤ 127`, `24 * k` pixels are
`256 * k` leptons, which is also `Coord_Cell_To_Lepton k`; 24 pixels are 256 leptons. -/
theorem whole_cells_convert_exactly (k : Int) (hlo : 0 ≤ k) (hhi : k ≤ 127) :
    Pixel_To_Lepton (24 * k) = 256 * k ∧
    Coord_Cell_To_Lepton k = 256 * k ∧
    Pixel_To_Lepton 24 = 256 := by
  refine ⟨?_, ?_, by decide⟩
  · rw [Pixel_To_Lepton_eq _ (by omega) (by omega), tdiv_eq_ite _ _ (by decide)]
    split <;> omega
  · unfold Coord_Cell_To_Lepton intMul
    rw [toInt32_of_range _ (by omega) (by omega), toInt16_of_range _ (by omega) (by omega)]
    omega

/-- The conversion of the widest whole number of cells, `k = 127`. -/
theorem whole_cells_convert_exactly_witness :
    Pixel_To_Lepton (24 * 127) = 256 * 127 ∧
    Coord_Cell_To_Lepton 127 = 256 * 127 ∧
    Pixel_To_Lepton 24 = 256 :=
  whole_cells_convert_exactly 127 (by decide) (by decide)

/-- C14. `Valid_Cell` rejects exactly the off-map sentinel: `Valid_Cell n` is false if
and only if `n = 0`; it is false at `0` and true at `1`. -/
theorem valid_cell_rejects_only_zero (n : Int) :
    (Valid_Cell n = false ↔ n = 0) ∧ Valid_Cell 0 = false ∧ Valid_Cell 1 = true := by
  refine ⟨?_, by decide, by decide⟩
  unfold Valid_Cell
  simp


/-! ## Sign bits and cell fields of a coordinate -/

theorem Coord_Is_Negative_eq (c : Nat) :
    Coord_Is_Negative c = true ↔ (c / 32768 % 2 = 1 ∨ c / 2147483648 % 2 = 1) := by
  unfold Coord_Is_Negative
  rw [and_80008000]
  simp only [bne_iff_ne, ne_eq]
  omega

/-- Bits of `c` selected by a mask `m` survive when `c` is first cut to a wider mask `M`
and then combined with bits of `d` taken from a mask `N` disjoint from `m`. -/
theorem and_or_masked (c d m M N : Nat) (hM : M &&& m = m) (hN : N &&& m = 0) :
    ((c &&& M) ||| (d &&& N)) &&& m = c &&& m := by
  apply Nat.eq_of_testBit_eq
  intro i
  have h1 := congrArg (fun v => Nat.testBit v i) hM
  have h2 := congrArg (fun v => Nat.testBit v i) hN
  simp only [Nat.testBit_and, Nat.zero_testBit] at h1 h2
  simp only [Nat.testBit_and, Nat.testBit_or]
  revert h1 h2
  generalize c.testBit i = cb
  generalize d.testBit i = db
  generalize M.testBit i = Mb
  generalize N.testBit i = Nb
  generalize m.testBit i = mb
  revert cb db Mb Nb mb
  decide

/-- C15. `Coord_Is_Negative` tests exactly the two sign bits: it is true if and only if
bit 15 of the X half or bit 15 of the Y half of the coordinate is set, and if and only if
one of the two leptons, read as signed 16-bit values, is negative. -/
theorem coord_is_negative_iff_sign_bits (c : Nat) :
    (Coord_Is_Negative c = true ↔
      ((c % 65536).testBit 15 = true ∨ (c / 65536 % 65536).testBit 15 = true)) ∧
    (Coord_Is_Negative c = true ↔ (Coord_Lepton_X c < 0 ∨ Coord_Lepton_Y c < 0)) := by
  rw [Coord_Is_Negative_eq, Coord_Lepton_X_eq, Coord_Lepton_Y_eq]
  constructor
  · rw [Nat.testBit_to_div_mod, Nat.testBit_to_div_mod]
    simp only [decide_eq_true_eq]
    omega
  · unfold toInt16
    omega

theorem testBit_field (c k n i : Nat) :
    (c / 2 ^ k % 2 ^ n).testBit i = (decide (i < n) && c.testBit (k + i)) := by
  rw [Nat.testBit_mod_two_pow, ← Nat.shiftRight_eq_div_pow, Nat.testBit_shiftRight]

/-- C16. `Coord_To_Cell` is the linear index of the two 7-bit cell fields of the
coordinate. `Coord_Cell_X c` is the field at bits 8-14 of `c` and `Coord_Cell_Y c` the
field at bits 24-30, both as numbers (`c / 2^8 mod 2^7`, `c / 2^24 mod 2^7`) and bit by
bit; both are below 128; the cell is `Coord_Cell_Y c * 128 + Coord_Cell_X c`, that is
`(c / 2^24 mod 128) * 128 + (c / 2^8 mod 128)`, and lies in `0 .. 16383`; it is a
function of bits 8-14 and 24-30 alone: clearing all other bits, or replacing the sub-cell
bytes and sign bits by those of any `d`, gives the same cell. The coordinate
`0x03000500` is in cell `389`. -/
theorem coord_to_cell_linear_index (c : Nat) :
    (Coord_Cell_X c = c / 256 % 128 ∧ Coord_Cell_Y c = c / 16777216 % 128) ∧
    (∀ i : Nat, (Coord_Cell_X c).testBit i = (decide (i < 7) && c.testBit (8 + i))) ∧
    (∀ i : Nat, (Coord_Cell_Y c).testBit i = (decide (i < 7) && c.testBit (24 + i))) ∧
    Coord_Cell_X c < 128 ∧ Coord_Cell_Y c < 128 ∧
    Coord_To_Cell c = ((Coord_Cell_Y c * 128 + Coord_Cell_X c : Nat) : Int) ∧
    Coord_To_Cell c = (((c / 16777216 % 128) * 128 + c / 256 % 128 : Nat) : Int) ∧
    (0 ≤ Coord_To_Cell c ∧ Coord_To_Cell c ≤ 16383) ∧
    Coord_To_Cell (c &&& 0x7F007F00) = Coord_To_Cell c ∧
    (∀ d : Nat,
      Coord_To_Cell ((c &&& 0x7F007F00) ||| (d &&& 0x80FF80FF)) = Coord_To_Cell c) ∧
    Coord_To_Cell 0x03000500 = 389 := by
  have ex := Coord_Cell_X_eq c
  have ey := Coord_Cell_Y_eq c
  have hx : Coord_Cell_X c < 128 := by rw [ex]; omega
  have hy : Coord_Cell_Y c < 128 := by rw [ey]; omega
  have hc : Coord_To_Cell c = ((Coord_Cell_Y c * 128 + Coord_Cell_X c : Nat) : Int) := by
    unfold Coord_To_Cell
    rw [Cell_From_XY_eq]
    omega
  have hd : ∀ d : Nat,
      Coord_To_Cell ((c &&& 0x7F007F00) ||| (d &&& 0x80FF80FF)) = Coord_To_Cell c := by
    intro d
    unfold Coord_To_Cell Coord_Cell_X Coord_Cell_Y
    rw [and_or_masked c d 0x00007F00 0x7F007F00 0x80FF80FF (by decide) (by decide),
      and_or_masked c d 0x7F000000 0x7F007F00 0x80FF80FF (by decide) (by decide)]
  have h0 := hd 0
  rw [Nat.zero_and, Nat.or_zero] at h0
  refine ⟨⟨ex, ey⟩, ?_, ?_, hx, hy, hc, ?_, by omega, h0, hd, by decide⟩
  · intro i
    rw [ex]
    exact testBit_field c 8 7 i
  · intro i
    rw [ey]
    exact testBit_field c 24 7 i
  · rw [hc, ex, ey]


/-- C17. Legal map positions never carry a sign bit: for every cell index `n` on the
128×128 grid (`0 ≤ n < 16384`) neither the centre nor the top-left coordinate of the
cell is negative. -/
theorem grid_cells_not_negative (n : Int) (hlo : 0 ≤ n) (hhi : n < 16384) :
    Coord_Is_Negative (Cell_To_Coord n) = false ∧
    Coord_Is_Negative (Cell_To_Coord_Top_Left n) = false := by
  have hx : Cell_Get_X n < 128 := by rw [Cell_Get_X_eq]; omega
  have hy : Cell_Get_Y n < 128 := by
    rw [Cell_Get_Y_eq]; unfold toUInt32; omega
  constructor
  · rw [← Bool.not_eq_true, Coord_Is_Negative_eq, Cell_To_Coord_eq]
    omega
  · rw [← Bool.not_eq_true, Coord_Is_Negative_eq, Cell_To_Coord_Top_Left_eq]
    omega

/-- The coordinates of the last cell of the grid, `n = 16383`. -/
theorem grid_cells_not_negative_witness :
    Coord_Is_Negative (Cell_To_Coord 16383) = false ∧
    Coord_Is_Negative (Cell_To_Coord_Top_Left 16383) = false :=
  grid_cells_not_negative 16383 (by decide) (by decide)

/-- C18. `Cell_To_Coord_Top_Left` is `Cell_To_Coord` with the sub-cell fraction zeroed:
for every cell index `n` the top-left coordinate is `Coord_Top_Left` of the centre
coordinate, and the centre coordinate is `Coord_Centered` of the top-left coordinate. -/
theorem cell_to_coord_top_left_refines (n : Int) :
    Cell_To_Coord_Top_Left n = Coord_Top_Left (Cell_To_Coord n) ∧
    Cell_To_Coord n = Coord_Centered (Cell_To_Coord_Top_Left n) := by
  have hx := Cell_Get_X_lt n
  have hy := Cell_Get_Y_lt n
  rw [Coord_Top_Left_eq, Coord_Centered_eq, Cell_To_Coord_eq, Cell_To_Coord_Top_Left_eq]
  constructor <;> omega

/-! ## Splitting and recombining coordinates -/

theorem Coord_Lepton_X_isInt16 (c : Nat) : toInt16 (Coord_Lepton_X c) = Coord_Lepton_X c := by
  unfold Coord_Lepton_X; exact toInt16_idem _

theorem Coord_Lepton_Y_isInt16 (c : Nat) : toInt16 (Coord_Lepton_Y c) = Coord_Lepton_Y c := by
  unfold Coord_Lepton_Y; exact toInt16_idem _

/-- Packing the two leptons of a coordinate gives the coordinate back. -/
theorem Coord_From_Lepton_XY_leptons (c : Nat) (h : IsCoord c) :
    Coord_From_Lepton_XY (Coord_Lepton_X c) (Coord_Lepton_Y c) = c := by
  unfold IsCoord at h
  rw [Coord_From_Lepton_XY_eq, Coord_Lepton_X_eq, Coord_Lepton_Y_eq]
  unfold toUInt16 toInt16
  omega

theorem toInt16_add_sub (x y : Int) : toInt16 (toInt16 (x + y) - y) = toInt16 x := by
  unfold toInt16; omega

theorem toInt16_sub_add (x y : Int) : toInt16 (toInt16 (x - y) + y) = toInt16 x := by
  unfold toInt16; omega

/-- C19. `Coord_Top_Left` and `Coord_Sub_Cell` split a coordinate into complementary
parts: adding the two parts gives the coordinate back, and neither part has a bit of
the other. -/
theorem top_left_sub_cell_split (c : Nat) (h : IsCoord c) :
    Coord_Add (Coord_Top_Left c) (Coord_Sub_Cell c) = c ∧
    Coord_Top_Left (Coord_Sub_Cell c) = 0 ∧
    Coord_Sub_Cell (Coord_Top_Left c) = 0 := by
  refine ⟨?_, ?_, ?_⟩
  · have hx : toInt16 (Coord_Lepton_X (Coord_Top_Left c) + Coord_Lepton_X (Coord_Sub_Cell c))
        = Coord_Lepton_X c := by
      rw [Coord_Lepton_X_eq, Coord_Lepton_X_eq, Coord_Lepton_X_eq, Coord_Top_Left_eq,
        Coord_Sub_Cell_eq]
      unfold toInt16
      omega
    have hy : toInt16 (Coord_Lepton_Y (Coord_Top_Left c) + Coord_Lepton_Y (Coord_Sub_Cell c))
        = Coord_Lepton_Y c := by
      rw [Coord_Lepton_Y_eq, Coord_Lepton_Y_eq, Coord_Lepton_Y_eq, Coord_Top_Left_eq,
        Coord_Sub_Cell_eq]
      unfold toInt16
      omega
    rw [Coord_Add_eq, hx, hy]
    exact Coord_From_Lepton_XY_leptons c h
  · rw [Coord_Top_Left_eq, Coord_Sub_Cell_eq]
    omega
  · rw [Coord_Sub_Cell_eq, Coord_Top_Left_eq]
    omega

/-- The split of a coordinate with all four bytes non-zero and both sign bits set. -/
theorem top_left_sub_cell_split_witness :
    Coord_Add (Coord_Top_Left 0xFEDCBA98) (Coord_Sub_Cell 0xFEDCBA98) = 0xFEDCBA98 ∧
    Coord_Top_Left (Coord_Sub_Cell 0xFEDCBA98) = 0 ∧
    Coord_Sub_Cell (Coord_Top_Left 0xFEDCBA98) = 0 :=
  top_left_sub_cell_split 0xFEDCBA98 (by decide)

/-- C20. `Coord_Subtract` undoes `Coord_Add`, and `Coord_Add` undoes `Coord_Subtract`,
for every coordinate `a` and every `b` (in particular every coordinate `b`), also when a
16-bit field wraps around. -/
theorem add_subtract_cancel (a b : Nat) (ha : IsCoord a) :
    Coord_Subtract (Coord_Add a b) b = a ∧ Coord_Add (Coord_Subtract a b) b = a := by
  constructor
  · rw [Coord_Subtract_eq, Coord_Add_eq, Coord_Lepton_X_from, Coord_Lepton_Y_from,
      toInt16_idem, toInt16_idem, toInt16_add_sub, toInt16_add_sub,
      Coord_Lepton_X_isInt16, Coord_Lepton_Y_isInt16]
    exact Coord_From_Lepton_XY_leptons a ha
  · rw [Coord_Add_eq, Coord_Subtract_eq, Coord_Lepton_X_from, Coord_Lepton_Y_from,
      toInt16_idem, toInt16_idem, toInt16_sub_add, toInt16_sub_add,
      Coord_Lepton_X_isInt16, Coord_Lepton_Y_isInt16]
    exact Coord_From_Lepton_XY_leptons a ha

/-- Cancellation where both fields wrap: `0xFFFFFFFF + 0x00010001` is `0`. -/
theorem add_subtract_cancel_witness :
    Coord_Subtract (Coord_Add 0xFFFFFFFF 0x00010001) 0x00010001 = 0xFFFFFFFF ∧
    Coord_Add (Coord_Subtract 0xFFFFFFFF 0x00010001) 0x00010001 = 0xFFFFFFFF :=
  add_subtract_cancel 0xFFFFFFFF 0x00010001 (by decide)

end Chronoshift
